import Mathlib

/-!
Verification development for the `nepa` repository's resilient request
executor (`src/nepa-dapp/src/api/integration-layer.ts`) and cross-service
monitor (`src/nepa-dapp/src/api/integration-monitor.ts`).

The TypeScript classes are shallowly embedded as pure Lean functions over
explicit state.  JavaScript dynamic (`any`) values are modelled by the
inductive `JValue`; JavaScript `Map`s (which iterate in insertion order and
update existing keys in place) are modelled as association lists; millisecond
clock readings (`Date.now()`) are passed explicitly as integer parameters;
`async` suspension points (rate-limit wait, retry backoff) are recorded in the
returned traces instead of actually sleeping; outbound HTTP attempts are an
oracle `Nat -> Except HttpError HttpResponse` giving the outcome of each
underlying attempt.  Exceptions escaping a method are `Except.error`.
-/

/-- A JavaScript runtime value, as far as the embedded code observes it:
`null`/`undefined`, booleans, numbers (modelled exactly as rationals),
strings, arrays, objects, and BigInt (which `JSON.stringify` refuses to
serialize).  Cyclic objects are not representable; of `JSON.stringify`'s
failure modes we model the BigInt one. -/
inductive JValue where
  | jnull : JValue
  | jundef : JValue
  | jbool : Bool → JValue
  | jnum : ℚ → JValue
  | jstr : String → JValue
  | jarr : List JValue → JValue
  | jobj : List (String × JValue) → JValue
  | jbigint : ℤ → JValue

/-- JavaScript truthiness: `null`, `undefined`, `false`, `0`, `0n` and the
empty string are falsy; every object/array is truthy. -/
def JValue.truthy : JValue → Bool
  | .jnull => false
  | .jundef => false
  | .jbool b => b
  | .jnum q => q ≠ 0
  | .jstr s => s ≠ ""
  | .jarr _ => true
  | .jobj _ => true
  | .jbigint n => n ≠ 0

/-- Is the value the JavaScript `undefined`? -/
def JValue.isUndef : JValue → Bool
  | .jundef => true
  | _ => false

mutual

/-- Does a value contain a BigInt anywhere?  `JSON.stringify` throws
`TypeError: Do not know how to serialize a BigInt` exactly when one does. -/
def JValue.hasBigInt : JValue → Bool
  | .jnull => false
  | .jundef => false
  | .jbool _ => false
  | .jnum _ => false
  | .jstr _ => false
  | .jarr xs => JValue.hasBigIntList xs
  | .jobj fs => JValue.hasBigIntFields fs
  | .jbigint _ => true

/-- `hasBigInt` over the elements of an array. -/
def JValue.hasBigIntList : List JValue → Bool
  | [] => false
  | x :: xs => x.hasBigInt || JValue.hasBigIntList xs

/-- `hasBigInt` over the fields of an object. -/
def JValue.hasBigIntFields : List (String × JValue) → Bool
  | [] => false
  | (_, v) :: fs => v.hasBigInt || JValue.hasBigIntFields fs

end

mutual

/-- Rendering of a `JValue` as a JSON text, mirroring `JSON.stringify` on
BigInt-free input (`undefined` renders to nothing at top level, is dropped
inside objects and becomes `null` inside arrays). -/
def JValue.render : JValue → String
  | .jnull => "null"
  | .jundef => ""
  | .jbool b => if b then "true" else "false"
  | .jnum q => toString q
  | .jstr s => "\x22" ++ s ++ "\x22"
  | .jarr xs => "[" ++ JValue.renderList xs ++ "]"
  | .jobj fs => "\x7b" ++ JValue.renderFields fs ++ "\x7d"
  | .jbigint n => toString n

/-- Renders array elements, comma separated (`undefined` becomes `null`). -/
def JValue.renderList : List JValue → String
  | [] => ""
  | x :: xs =>
      (if x.isUndef then "null" else x.render) ++
      (if xs.isEmpty then "" else ",") ++ JValue.renderList xs

/-- Renders object fields, comma separated, dropping `undefined` fields. -/
def JValue.renderFields : List (String × JValue) → String
  | [] => ""
  | (k, v) :: fs =>
      if v.isUndef then JValue.renderFields fs
      else "\x22" ++ k ++ "\x22:" ++ v.render ++
        (if fs.all (fun f => f.2.isUndef) then "" else ",") ++ JValue.renderFields fs

end

/-- `JSON.stringify`: fails (throws) iff the value contains a BigInt. -/
def jsonStringify (v : JValue) : Option String :=
  if v.hasBigInt then none else some v.render

/-- `interface IntegrationMetrics` of integration-layer.ts.  Counters are
naturals; the running average and response times are exact rationals
(JavaScript numbers carry no further structure the claims depend on).
`lastErrorTime` (`new Date()`) is a millisecond timestamp. -/
structure IntegrationMetrics where
  totalRequests : ℕ
  successfulRequests : ℕ
  failedRequests : ℕ
  averageResponseTime : ℚ
  rateLimitHits : ℕ
  cacheHits : ℕ
  cacheMisses : ℕ
  lastError : Option String
  lastErrorTime : Option ℤ
deriving DecidableEq

/-- The zero-initialised metrics record built in the constructor. -/
def IntegrationMetrics.init : IntegrationMetrics :=
  ⟨0, 0, 0, 0, 0, 0, 0, none, none⟩

/-- One entry of `this.cache : Map<string, {data, timestamp, hits}>`. -/
structure CacheEntry where
  data : JValue
  timestamp : ℤ
  hits : ℕ

/-- A JavaScript `Map`, modelled as an association list in insertion order. -/
abbrev JsMap (α : Type) := List (String × α)

/-- `Map.get`: first (and, under the unique-keys invariant, only) binding. -/
def JsMap.get {α : Type} (m : JsMap α) (k : String) : Option α :=
  (m.find? (fun p => p.1 = k)).map (·.2)

/-- `Map.set`: updates an existing key in place (keeping its insertion
position, as JavaScript `Map`s do) or appends a new binding. -/
def JsMap.set {α : Type} : JsMap α → String → α → JsMap α
  | [], k, v => [(k, v)]
  | p :: ps, k, v => if p.1 = k then (k, v) :: ps else p :: JsMap.set ps k v

/-- `Map.delete`: removes the first binding with the given key. -/
def JsMap.del {α : Type} : JsMap α → String → JsMap α
  | [], _ => []
  | p :: ps, k => if p.1 = k then ps else p :: JsMap.del ps k

/-- `interface CacheConfig` of integration-layer.ts. -/
inductive CacheStrategy where
  | lru | fifo | lfu
deriving DecidableEq

/-- Cache configuration: enabled flag, TTL (ms), capacity and strategy. -/
structure CacheConfig where
  enabled : Bool
  ttl : ℤ
  maxSize : ℕ
  strategy : CacheStrategy
deriving DecidableEq

/-- `interface RateLimitConfig` (the two fields the executor reads). -/
structure RateLimitConfig where
  windowMs : ℤ
  maxRequests : ℕ
deriving DecidableEq

/-- The `retryAttempts`/`retryDelay` fields of `APIConfig` that the retry
loop reads. -/
structure APIConfig where
  retryAttempts : ℕ
  retryDelay : ℕ
deriving DecidableEq

namespace IntegrationLayer

/-- `getFromCache(key)`: absent key gives `null`; an entry with
`now - timestamp > ttl` is deleted and reads as `null`; otherwise the hit
count is bumped and the stored data returned.  The pair carries the possibly
mutated cache. -/
def getFromCache (cc : CacheConfig) (now : ℤ) (key : String)
    (cache : JsMap CacheEntry) : JValue × JsMap CacheEntry :=
  match cache.get key with
  | none => (JValue.jnull, cache)
  | some item =>
      if cc.ttl < now - item.timestamp then
        (JValue.jnull, cache.del key)
      else
        (item.data, cache.set key ⟨item.data, item.timestamp, item.hits + 1⟩)

/-- `evictLRU()`: scan in insertion order for the entry with the smallest
timestamp strictly below `Date.now()`; delete it if its key is truthy
(the scan starts from `oldestTime = Date.now()`, `oldestKey = ''`, and
`if (oldestKey)` skips deletion for the empty-string key). -/
def evictLRU (now : ℤ) (cache : JsMap CacheEntry) : JsMap CacheEntry :=
  let acc := cache.foldl
    (fun (acc : String × ℤ) p =>
      if p.2.timestamp < acc.2 then (p.1, p.2.timestamp) else acc)
    ("", now)
  if acc.1 = "" then cache else cache.del acc.1

/-- `evictFIFO()`: delete the first key of the map iteration, unless the map
is empty or that key is the (falsy) empty string. -/
def evictFIFO (cache : JsMap CacheEntry) : JsMap CacheEntry :=
  match cache with
  | [] => []
  | p :: ps => if p.1 = "" then p :: ps else ps

/-- `evictLFU()`: scan in insertion order for the entry with the fewest hits
(starting from `leastHits = Infinity`, modelled as `none`); delete it if its
key is truthy. -/
def evictLFU (cache : JsMap CacheEntry) : JsMap CacheEntry :=
  let acc := cache.foldl
    (fun (acc : String × Option ℕ) p =>
      match acc.2 with
      | none => (p.1, some p.2.hits)
      | some h => if p.2.hits < h then (p.1, some p.2.hits) else acc)
    ("", none)
  if acc.1 = "" then cache else cache.del acc.1

/-- `evictFromCache()`: dispatch on the configured strategy. -/
def evictFromCache (cc : CacheConfig) (now : ℤ) (cache : JsMap CacheEntry) :
    JsMap CacheEntry :=
  match cc.strategy with
  | .lru => evictLRU now cache
  | .fifo => evictFIFO cache
  | .lfu => evictLFU cache

/-- `setCache(key, data)`: evict one entry (by strategy) if at capacity, then
store the new entry with the current timestamp and zero hits. -/
def setCache (cc : CacheConfig) (now : ℤ) (key : String) (data : JValue)
    (cache : JsMap CacheEntry) : JsMap CacheEntry :=
  JsMap.set
    (if cc.maxSize ≤ cache.length then evictFromCache cc now cache else cache)
    key ⟨data, now, 0⟩

end IntegrationLayer

/-- Result of an underlying successful HTTP attempt, as the executor reads
it: the parsed body (`response.data`), the status code, and the
`config.metadata?.responseTime` field echoed back on the response config
(`none` when no metadata object was attached to the request config). -/
structure HttpResponse where
  data : JValue
  status : ℤ
  metaResponseTime : Option ℚ

/-- Result of an underlying failed HTTP attempt: `error.message` and the
optional `error.response?.status`. -/
structure HttpError where
  message : String
  status : Option ℤ
deriving DecidableEq

namespace IntegrationLayer

/-- `updateAverageResponseTime(responseTime)`: incremental running-average
update with `n` the current (post-increment) successful + failed count. -/
def updateAverageResponseTime (m : IntegrationMetrics) (responseTime : ℚ) :
    IntegrationMetrics :=
  let totalRequests : ℚ := (m.successfulRequests : ℚ) + (m.failedRequests : ℚ)
  { m with averageResponseTime :=
      (m.averageResponseTime * (totalRequests - 1) + responseTime) / totalRequests }

/-- `recordSuccess(response)` (the axios response interceptor): bump the
success counter and feed `response.config.metadata?.responseTime || 0` into
the running average (the `||` coalesces a missing value to `0`). -/
def recordSuccess (m : IntegrationMetrics) (r : HttpResponse) : IntegrationMetrics :=
  updateAverageResponseTime
    { m with successfulRequests := m.successfulRequests + 1 }
    (match r.metaResponseTime with
     | some q => if q = 0 then 0 else q
     | none => 0)

/-- `recordFailure(error)` (the axios error interceptor): bump the failure
counter and remember the last error and its time. -/
def recordFailure (m : IntegrationMetrics) (e : HttpError) (now : ℤ) :
    IntegrationMetrics :=
  { m with failedRequests := m.failedRequests + 1,
           lastError := some e.message,
           lastErrorTime := some now }

/-- Outcome of `makeRequestWithRetry`: the final result (the thrown last
error when all attempts fail), the metrics after the per-attempt interceptor
updates, the number of underlying attempts made, and the list of backoff
delays awaited between consecutive attempts. -/
structure RetryOutcome where
  result : Except HttpError HttpResponse
  metrics : IntegrationMetrics
  attempts : ℕ
  delays : List ℕ

/-- Body of the `for (attempt = 0; attempt <= retryAttempts; attempt++)` loop
of `makeRequestWithRetry`, at attempt index `i` with `remaining` further
attempts allowed.  Each attempt first bumps `totalRequests`, then consults
the oracle; a failure with attempts remaining awaits `retryDelay * 2^i` and
continues. -/
def retryGo (api : APIConfig) (oracle : ℕ → Except HttpError HttpResponse)
    (now : ℤ) (m : IntegrationMetrics) (i : ℕ) : ℕ → RetryOutcome
  | 0 =>
      let m := { m with totalRequests := m.totalRequests + 1 }
      match oracle i with
      | .ok r => ⟨.ok r, recordSuccess m r, i + 1, []⟩
      | .error e => ⟨.error e, recordFailure m e now, i + 1, []⟩
  | remaining + 1 =>
      let m := { m with totalRequests := m.totalRequests + 1 }
      match oracle i with
      | .ok r => ⟨.ok r, recordSuccess m r, i + 1, []⟩
      | .error e =>
          let rest := retryGo api oracle now (recordFailure m e now) (i + 1) remaining
          ⟨rest.result, rest.metrics, rest.attempts, api.retryDelay * 2 ^ i :: rest.delays⟩

/-- `makeRequestWithRetry(config)`: run the loop from attempt 0 with
`retryAttempts` further attempts allowed. -/
def makeRequestWithRetry (api : APIConfig)
    (oracle : ℕ → Except HttpError HttpResponse) (now : ℤ)
    (m : IntegrationMetrics) : RetryOutcome :=
  retryGo api oracle now m 0 api.retryAttempts

/-- Outcome of `checkRateLimit()`: the updated per-target window, the awaited
delay (if any), and the updated metrics. -/
structure RateLimitOutcome where
  window : List ℤ
  waited : Option ℤ
  metrics : IntegrationMetrics

/-- `checkRateLimit()`: prune the window to timestamps strictly inside the
trailing `windowMs`, wait `oldest + windowMs - now` (if positive) when the
pruned window is at or above `maxRequests` (bumping `rateLimitHits`), then
append `now`.  `Math.min` of an empty spread (only reachable with
`maxRequests = 0`) is `Infinity` in JavaScript; that pathological wait is
modelled as no recorded wait. -/
def checkRateLimit (rl : RateLimitConfig) (now : ℤ) (m : IntegrationMetrics)
    (requests : List ℤ) : RateLimitOutcome :=
  let windowStart := now - rl.windowMs
  let requests := requests.filter (fun t => windowStart < t)
  if rl.maxRequests ≤ requests.length then
    let m := { m with rateLimitHits := m.rateLimitHits + 1 }
    match requests.min? with
    | some oldest =>
        let waitTime := oldest + rl.windowMs - now
        ⟨requests ++ [now], if 0 < waitTime then some waitTime else none, m⟩
    | none => ⟨requests ++ [now], none, m⟩
  else
    ⟨requests ++ [now], none, m⟩

/-- `generateCacheKey(config)`: `JSON.stringify` of
`{url, method, params, data}` (throws, i.e. `none`, iff a field is not
serializable), then base64-encoded.  Base64 is an injective re-encoding with
no bearing on any property here, so the key is modelled as the JSON text
itself. -/
def generateCacheKey (method : Option String) (url : String)
    (params : JValue) (data : JValue) : Option String :=
  jsonStringify (JValue.jobj
    [("url", JValue.jstr url),
     ("method", match method with | some s => JValue.jstr s | none => JValue.jundef),
     ("params", params),
     ("data", data)])

/-- The caller-supplied `AxiosRequestConfig` as the executor reads it:
optional HTTP verb, target url, optional params and body (absent ones are
`undefined`), and the `metadata.responseTime` field that
`recordSuccess` reads off the echoed response config (`none` when absent —
nothing in the repository ever sets it). -/
structure CallConfig where
  method : Option String
  url : String
  params : JValue
  data : JValue
  metaResponseTime : Option ℚ

/-- JavaScript `String.prototype.toLowerCase` on one character, for the
ASCII range the HTTP verbs live in. -/
def charToLower (c : Char) : Char :=
  if 65 ≤ c.toNat ∧ c.toNat ≤ 90 then Char.ofNat (c.toNat + 32) else c

/-- JavaScript `toLowerCase`, characterwise. -/
def strToLower (s : String) : String := ⟨s.data.map charToLower⟩

/-- Does `config.method?.toLowerCase() === 'get'` hold? -/
def CallConfig.isGet (cfg : CallConfig) : Bool :=
  match cfg.method with
  | some s => strToLower s = "get"
  | none => false

/-- The mutable state of an `IntegrationLayer` instance touched by
`request`: metrics, cache, and the (single-target) rate-limit window. -/
structure LayerState where
  metrics : IntegrationMetrics
  cache : JsMap CacheEntry
  window : List ℤ

/-- The `APIResponse` envelope returned by `request`; optional fields are
absent (`none`) exactly when the source object literal omits them. -/
structure APIResponse where
  success : Bool
  data : Option JValue
  error : Option String
  statusCode : Option ℤ
  responseTime : Option ℤ
  cached : Option Bool

/-- Suspensions and attempts performed by one `request` call: number of
underlying HTTP attempts, backoff delays between them, and the rate-limit
admission wait (`none` when admission was immediate or never reached). -/
structure RequestTrace where
  attempts : ℕ
  delays : List ℕ
  rateWait : Option ℤ

/-- Tail of `request` after the cache lookup: rate-limit admission, retrying
execution, cache population for cacheable reads, and assembly of the success
or failure envelope (the catch block; `emitWebhook` performs I/O whose
failures are caught per subscription and touches none of this state). -/
def requestCore (api : APIConfig) (rl : RateLimitConfig) (cc : CacheConfig)
    (cfg : CallConfig) (oracle : ℕ → Except HttpError HttpResponse)
    (t0 t1 : ℤ) (cacheKey : String) (st : LayerState) :
    APIResponse × LayerState × RequestTrace :=
  let rlOut := checkRateLimit rl t0 st.metrics st.window
  let out := makeRequestWithRetry api oracle t1 rlOut.metrics
  match out.result with
  | .ok resp =>
      let cache := if cc.enabled && cfg.isGet
                   then setCache cc t1 cacheKey resp.data st.cache
                   else st.cache
      (⟨true, some resp.data, none, some resp.status, some (t1 - t0), none⟩,
       ⟨out.metrics, cache, rlOut.window⟩,
       ⟨out.attempts, out.delays, rlOut.waited⟩)
  | .error e =>
      (⟨false, none, some e.message, e.status, some (t1 - t0), none⟩,
       ⟨out.metrics, st.cache, rlOut.window⟩,
       ⟨out.attempts, out.delays, rlOut.waited⟩)

/-- `request(config)`.  `Date.now()` readings are collapsed to two instants:
`t0` at entry (start time, cache lookup, rate-limit check) and `t1` at
completion (cache population, failure time, response-time arithmetic).  The
cache key is computed before the `try` block, so a serialization failure
there escapes as an exception (`Except.error`); everything after is inside
the `try`/`catch` and always produces an `APIResponse`. -/
def request (api : APIConfig) (rl : RateLimitConfig) (cc : CacheConfig)
    (cfg : CallConfig) (oracle : ℕ → Except HttpError HttpResponse)
    (t0 t1 : ℤ) (st : LayerState) :
    Except String (APIResponse × LayerState × RequestTrace) :=
  match generateCacheKey cfg.method cfg.url cfg.params cfg.data with
  | none => .error "TypeError: Do not know how to serialize a BigInt"
  | some cacheKey =>
      if cc.enabled && cfg.isGet then
        let hit := getFromCache cc t0 cacheKey st.cache
        if hit.1.truthy then
          .ok (⟨true, some hit.1, none, none, some (t1 - t0), some true⟩,
               ⟨{ st.metrics with cacheHits := st.metrics.cacheHits + 1 },
                hit.2, st.window⟩,
               ⟨0, [], none⟩)
        else
          .ok (requestCore api rl cc cfg oracle t0 t1 cacheKey
            ⟨{ st.metrics with cacheMisses := st.metrics.cacheMisses + 1 },
             hit.2, st.window⟩)
      else
        .ok (requestCore api rl cc cfg oracle t0 t1 cacheKey st)

end IntegrationLayer

/-- Log severity levels, ordered as in the `levels` array of `shouldLog`. -/
inductive LogLevel where
  | debug | info | warn | error
deriving DecidableEq

/-- Index of a level in `['debug', 'info', 'warn', 'error']`. -/
def LogLevel.index : LogLevel → ℕ
  | .debug => 0
  | .info => 1
  | .warn => 2
  | .error => 3

/-- The `error` detail object of a `LogEntry`. -/
structure LogError where
  name : String
  message : String
  stack : Option String

/-- `interface LogEntry` of integration-monitor.ts; `timestamp` is the
millisecond reading of the `new Date()` taken in `log`. -/
structure LogEntry where
  timestamp : ℤ
  level : LogLevel
  service : String
  operation : String
  message : String
  metadata : Option (List (String × JValue))
  correlationId : Option String
  userId : Option String
  duration : Option ℤ
  statusCode : Option ℤ
  error : Option LogError

/-- The monitor configuration fields exercised by the claims: log level,
retention period (days), log cap, alert enablement and cooldown (ms).  The
alert channel list is not modelled: alerts are delivered to zero channels,
as in the repository's own test configuration, so `triggerAlert`'s
per-channel I/O (whose failures are caught and logged) never runs. -/
structure MonitoringConfig where
  logLevel : LogLevel
  retentionPeriod : ℤ
  maxLogEntries : ℕ
  alertEnabled : Bool
  alertCooldown : ℤ

/-- An alert event as emitted by `triggerAlert` (`emit('alert', {...})`),
including the metadata drawn from the triggering log entry. -/
structure Alert where
  serviceName : String
  alertType : String
  timestamp : ℤ
  message : String
  severity : String
  metaError : String
  metaOperation : String
  metaTimestamp : ℤ

/-- The monitor state touched by `log`: the log store, the per-(service,
alert-kind) cooldown timestamps, and the stream of emitted alert events. -/
structure MonitorState where
  logs : List LogEntry
  alertCooldowns : JsMap ℤ
  alerts : List Alert

namespace IntegrationMonitor

/-- `shouldLog(level)`: keep entries whose level index is at least the
configured level's index. -/
def shouldLog (cfg : MonitoringConfig) (level : LogLevel) : Bool :=
  cfg.logLevel.index ≤ level.index

/-- JavaScript `array.slice(-n)`: the last `n` elements — except that
`slice(-0)` is `slice(0)`, the whole array. -/
def sliceLast {α : Type} (n : ℕ) (l : List α) : List α :=
  if n = 0 then l else l.drop (l.length - n)

/-- `addLogEntry(entry)`: append, enforce the `maxLogEntries` cap by keeping
the newest entries (`slice(-maxLogEntries)`), then drop entries at or beyond
the retention age (`timestamp > cutoffDate` is kept). -/
def addLogEntry (cfg : MonitoringConfig) (now : ℤ) (entry : LogEntry)
    (logs : List LogEntry) : List LogEntry :=
  List.filter
    (fun log => now - cfg.retentionPeriod * (24 * 60 * 60 * 1000) < log.timestamp)
    (if cfg.maxLogEntries < (logs ++ [entry]).length
     then sliceLast cfg.maxLogEntries (logs ++ [entry])
     else logs ++ [entry])

/-- `checkAlerts(serviceName, logEntry)`: gated on `alertConfig.enabled` and
the `serviceName + '_error'` cooldown; fires a `high_error_rate` alert and
then records the cooldown timestamp. -/
def checkAlerts (cfg : MonitoringConfig) (now : ℤ) (serviceName : String)
    (logEntry : LogEntry) (st : MonitorState) : MonitorState :=
  if !cfg.alertEnabled then st
  else
    let cooldownKey := serviceName ++ "_error"
    let fire : MonitorState :=
      { st with
        alerts := st.alerts ++
          [⟨serviceName, "high_error_rate", now,
            "High error rate detected in " ++ serviceName, "warning",
            logEntry.message, logEntry.operation, logEntry.timestamp⟩],
        alertCooldowns := st.alertCooldowns.set (serviceName ++ "_error") now }
    match st.alertCooldowns.get cooldownKey with
    | some lastAlert => if now - lastAlert < cfg.alertCooldown then st else fire
    | none => fire

/-- The `logEntry` object literal built by `log`. -/
def mkLogEntry (now : ℤ) (level : LogLevel) (service operation message : String)
    (metadata : Option (List (String × JValue))) (correlationId : Option String)
    (userId : Option String) (duration : Option ℤ) (statusCode : Option ℤ)
    (err : Option LogError) : LogEntry :=
  ⟨now, level, service, operation, message, metadata, correlationId,
   userId, duration, statusCode, err⟩

/-- `log(level, service, operation, message, ...)`: drop entries below the
configured level, build the entry with the current time, insert it into the
log store, emit it, and run `checkAlerts` for error-level entries. -/
def log (cfg : MonitoringConfig) (now : ℤ) (level : LogLevel)
    (service operation message : String)
    (metadata : Option (List (String × JValue)))
    (correlationId : Option String) (userId : Option String)
    (duration : Option ℤ) (statusCode : Option ℤ)
    (err : Option LogError) (st : MonitorState) : MonitorState :=
  if !shouldLog cfg level then st
  else if level = LogLevel.error then
    checkAlerts cfg now service
      (mkLogEntry now level service operation message metadata correlationId
        userId duration statusCode err)
      { st with logs := (addLogEntry cfg now (mkLogEntry now level service
          operation message metadata correlationId userId duration statusCode
          err) st.logs) }
  else
    { st with logs := (addLogEntry cfg now (mkLogEntry now level service
        operation message metadata correlationId userId duration statusCode
        err) st.logs) }

/-- Health status classification. -/
inductive HealthStatus where
  | healthy | degraded | unhealthy
deriving DecidableEq

/-- `determineHealthStatus(healthResult, metrics, recentErrors)`: probe
first, then the unhealthy thresholds, then the degraded thresholds.
`recentErrors` is the length of the `getRecentErrors(serviceName, 5)`
list. -/
def determineHealthStatus (probeHealthy : Bool) (metrics : IntegrationMetrics)
    (recentErrors : ℕ) : HealthStatus :=
  if !probeHealthy then .unhealthy
  else
    let errorRate : ℚ :=
      if 0 < metrics.totalRequests
      then (metrics.failedRequests : ℚ) / (metrics.totalRequests : ℚ)
      else 0
    if errorRate > 1/10 ∨ metrics.averageResponseTime > 10000 then .unhealthy
    else if errorRate > 1/20 ∨ metrics.averageResponseTime > 5000 ∨ recentErrors > 3 then
      .degraded
    else .healthy

end IntegrationMonitor

namespace IntegrationMonitor

/-- The health classification exactly as the specification words it
(probe first, then the unhealthy thresholds, then the degraded
thresholds), phrased over an already-computed error rate. -/
def healthClassificationSpec (probeHealthy : Bool)
    (errorRate avgResponseTime : ℚ) (recentErrors : ℕ) : HealthStatus :=
  if !probeHealthy then .unhealthy
  else if errorRate > 1/10 ∨ avgResponseTime > 10000 then .unhealthy
  else if errorRate > 1/20 ∨ avgResponseTime > 5000 ∨ recentErrors > 3 then .degraded
  else .healthy

end IntegrationMonitor

/-- C7: the health evaluation follows the specified classification order
(probe result, then the 0.10 error-rate / 10000 ms unhealthy thresholds,
then the 0.05 / 5000 ms / more-than-3-recent-errors degraded thresholds),
with the claim's three concrete examples: errorRate 0.11 is unhealthy,
errorRate 0.06 with 100 ms average is degraded, errorRate 0.01 with 100 ms
average and a healthy probe is healthy. -/
theorem determineHealthStatus_matches_spec :
    (∀ (probeHealthy : Bool) (m : IntegrationMetrics) (recentErrors : ℕ),
      IntegrationMonitor.determineHealthStatus probeHealthy m recentErrors =
        IntegrationMonitor.healthClassificationSpec probeHealthy
          (if 0 < m.totalRequests
           then (m.failedRequests : ℚ) / (m.totalRequests : ℚ) else 0)
          m.averageResponseTime recentErrors) ∧
    IntegrationMonitor.determineHealthStatus true
      ⟨100, 89, 11, 100, 0, 0, 0, none, none⟩ 0 = .unhealthy ∧
    IntegrationMonitor.determineHealthStatus true
      ⟨100, 94, 6, 100, 0, 0, 0, none, none⟩ 0 = .degraded ∧
    IntegrationMonitor.determineHealthStatus true
      ⟨100, 99, 1, 100, 0, 0, 0, none, none⟩ 0 = .healthy := by
  refine ⟨fun probeHealthy m recentErrors => rfl,
    by norm_num [IntegrationMonitor.determineHealthStatus],
    by norm_num [IntegrationMonitor.determineHealthStatus],
    by norm_num [IntegrationMonitor.determineHealthStatus]⟩

/-- C3: rate-limit admission never rejects — it always returns an updated
window with `now` appended after pruning the timestamps outside the trailing
window; when the pruned window has reached `maxRequests` the admission waits
exactly `oldestRemainingTimestamp + windowMs - now` (a positive amount),
and otherwise it does not wait. -/
theorem checkRateLimit_admission_spec (rl : RateLimitConfig) (now : ℤ)
    (m : IntegrationMetrics) (requests : List ℤ) (hmax : 1 ≤ rl.maxRequests) :
    (IntegrationLayer.checkRateLimit rl now m requests).window =
      requests.filter (fun t => now - rl.windowMs < t) ++ [now] ∧
    (∀ oldest,
      (requests.filter (fun t => now - rl.windowMs < t)).min? = some oldest →
      rl.maxRequests ≤ (requests.filter (fun t => now - rl.windowMs < t)).length →
      (IntegrationLayer.checkRateLimit rl now m requests).waited =
          some (oldest + rl.windowMs - now) ∧
        0 < oldest + rl.windowMs - now) ∧
    ((requests.filter (fun t => now - rl.windowMs < t)).length < rl.maxRequests →
      (IntegrationLayer.checkRateLimit rl now m requests).waited = none) := by
  unfold IntegrationLayer.checkRateLimit
  by_cases hlen :
      rl.maxRequests ≤ (requests.filter (fun t => now - rl.windowMs < t)).length
  · rcases hm : (requests.filter (fun t => now - rl.windowMs < t)).min? with _ | oldest
    · have : requests.filter (fun t => now - rl.windowMs < t) = [] :=
        List.min?_eq_none_iff.mp hm
      rw [this] at hlen
      simp at hlen
      omega
    · have hmem : oldest ∈ requests.filter (fun t => now - rl.windowMs < t) :=
        List.min?_mem (fun a b => min_choice a b) hm
      have hgt : now - rl.windowMs < oldest :=
        of_decide_eq_true (List.mem_filter.mp hmem).2
      have hpos : 0 < oldest + rl.windowMs - now := by omega
      refine ⟨by simp [hlen, hm], fun o hmo hlo => ?_, fun hlt => by omega⟩
      cases hmo
      exact ⟨by simp [hlen, hm, hpos], hpos⟩
  · refine ⟨by simp [hlen], fun o hmo hlo => absurd hlo hlen, fun hlt => by simp [hlen]⟩

/-- Witness for C3 at the specification's own example: `maxRequests = 5`,
`windowMs = 1000`, five admissions at 0, 10, 20, 30, 40 ms and a sixth at
50 ms, which is delayed by `0 + 1000 - 50 = 950` ms — `windowMs` minus the
time elapsed since the first admission — and still admitted (appended). -/
theorem checkRateLimit_admission_witness :
    (IntegrationLayer.checkRateLimit ⟨1000, 5⟩ 50 IntegrationMetrics.init
        [0, 10, 20, 30, 40]).window = [0, 10, 20, 30, 40, 50] ∧
    (IntegrationLayer.checkRateLimit ⟨1000, 5⟩ 50 IntegrationMetrics.init
        [0, 10, 20, 30, 40]).waited = some 950 := by
  have h := checkRateLimit_admission_spec ⟨1000, 5⟩ 50 IntegrationMetrics.init
    [0, 10, 20, 30, 40] (by decide)
  refine ⟨by simpa using h.1, ?_⟩
  have h2 := (h.2.1 0 (by decide) (by decide)).1
  simpa using h2

/-- A concrete log entry used by the monitor examples. -/
def demoEntry : LogEntry :=
  ⟨100, .info, "svc", "op", "msg", none, none, none, none, none, none⟩

/-- Counterexample to C9 as stated: with `maxLogEntries = 0` the cap is not
enforced — `this.logs.slice(-0)` is `slice(0)`, the whole array — so one
insert into an empty store leaves 1 entry, exceeding the configured maximum
of 0. -/
theorem addLogEntry_cap_zero_violation :
    (IntegrationMonitor.addLogEntry ⟨.debug, 7, 0, true, 300000⟩ 100 demoEntry
      []).length = 1 := by
  rfl

/-- C9 (amended: requires `maxLogEntries ≥ 1`): after every insert the log
store holds at most `maxLogEntries` entries, holds no entry at or older than
the retention cutoff, and is a subsequence of the previous entries plus the
new one (entries are never mutated, only dropped from the front). -/
theorem addLogEntry_bounds (cfg : MonitoringConfig) (now : ℤ) (entry : LogEntry)
    (logs : List LogEntry) (hmax : 1 ≤ cfg.maxLogEntries) :
    (IntegrationMonitor.addLogEntry cfg now entry logs).length ≤ cfg.maxLogEntries ∧
    (∀ e ∈ IntegrationMonitor.addLogEntry cfg now entry logs,
      now - cfg.retentionPeriod * (24 * 60 * 60 * 1000) < e.timestamp) ∧
    List.Sublist (IntegrationMonitor.addLogEntry cfg now entry logs)
      (logs ++ [entry]) := by
  unfold IntegrationMonitor.addLogEntry
  by_cases hlen : cfg.maxLogEntries < (logs ++ [entry]).length
  · rw [if_pos hlen, IntegrationMonitor.sliceLast, if_neg (by omega : ¬cfg.maxLogEntries = 0)]
    refine ⟨?_, ?_, ?_⟩
    · calc (List.filter _ ((logs ++ [entry]).drop
            ((logs ++ [entry]).length - cfg.maxLogEntries))).length
          ≤ ((logs ++ [entry]).drop
            ((logs ++ [entry]).length - cfg.maxLogEntries)).length :=
            List.length_filter_le _ _
        _ ≤ cfg.maxLogEntries := by
            rw [List.length_drop]
            omega
    · intro e he
      exact of_decide_eq_true (List.mem_filter.mp he).2
    · exact (List.filter_sublist _).trans (List.drop_sublist _ _)
  · rw [if_neg hlen]
    refine ⟨?_, ?_, List.filter_sublist _⟩
    · calc (List.filter _ (logs ++ [entry])).length
          ≤ (logs ++ [entry]).length := List.length_filter_le _ _
        _ ≤ cfg.maxLogEntries := by omega
    · intro e he
      exact of_decide_eq_true (List.mem_filter.mp he).2

/-- Witness for C9 (amended) at a concrete input: cap 2, two stored entries,
one insert; the hypothesis `1 ≤ maxLogEntries` holds and the store stays at
2 entries. -/
theorem addLogEntry_bounds_witness :
    1 ≤ (2 : ℕ) ∧
    (IntegrationMonitor.addLogEntry ⟨.debug, 7, 2, true, 300000⟩ 100 demoEntry
      [demoEntry, demoEntry]).length ≤ 2 := by
  exact ⟨by decide,
    (addLogEntry_bounds ⟨.debug, 7, 2, true, 300000⟩ 100 demoEntry
      [demoEntry, demoEntry] (by decide)).1⟩

/-- Setting a key makes it readable: `m.set k v` maps `k` to `v`. -/
theorem JsMap.get_set_self {α : Type} (m : JsMap α) (k : String) (v : α) :
    (JsMap.set m k v).get k = some v := by
  induction m with
  | nil => simp [JsMap.set, JsMap.get]
  | cons p ps ih =>
      by_cases h : p.1 = k
      · simp [JsMap.set, h, JsMap.get]
      · simpa [JsMap.set, h, JsMap.get, List.find?_cons_of_neg] using ih

/-- Error-level entries pass the `shouldLog` filter for every configured
level (error is the maximal level index). -/
theorem shouldLog_error (cfg : MonitoringConfig) :
    IntegrationMonitor.shouldLog cfg LogLevel.error = true := by
  have h : cfg.logLevel.index ≤ LogLevel.error.index := by
    cases cfg.logLevel <;> simp [LogLevel.index]
  simp [IntegrationMonitor.shouldLog, h]

/-- An error-level `log` whose service is inside its cooldown window only
appends the entry to the store: `checkAlerts` returns without firing. -/
theorem log_error_suppressed (cfg : MonitoringConfig) (now : ℤ)
    (s op msg : String) (st : MonitorState) (t : ℤ)
    (hlast : st.alertCooldowns.get (s ++ "_error") = some t)
    (hlt : now - t < cfg.alertCooldown) :
    IntegrationMonitor.log cfg now LogLevel.error s op msg none none none none
        none none st =
      { st with logs := (IntegrationMonitor.addLogEntry cfg now
          (IntegrationMonitor.mkLogEntry now LogLevel.error s op msg none none
            none none none none) st.logs) } := by
  by_cases hen : cfg.alertEnabled <;>
    simp [IntegrationMonitor.log, shouldLog_error, IntegrationMonitor.checkAlerts,
      hen, hlast, hlt]

/-- An error-level `log` for a service with alerts enabled and no live
cooldown (none recorded, or the recorded one has fully elapsed) appends the
entry, emits exactly one `high_error_rate` alert, and records the cooldown
timestamp. -/
theorem log_error_fires (cfg : MonitoringConfig) (now : ℤ)
    (s op msg : String) (st : MonitorState)
    (hen : cfg.alertEnabled = true)
    (hready : ∀ t, st.alertCooldowns.get (s ++ "_error") = some t →
      cfg.alertCooldown ≤ now - t) :
    IntegrationMonitor.log cfg now LogLevel.error s op msg none none none none
        none none st =
      ⟨IntegrationMonitor.addLogEntry cfg now
          (IntegrationMonitor.mkLogEntry now LogLevel.error s op msg none none
            none none none none) st.logs,
        st.alertCooldowns.set (s ++ "_error") now,
        st.alerts ++ [⟨s, "high_error_rate", now,
          "High error rate detected in " ++ s, "warning", msg, op, now⟩]⟩ := by
  rcases hlast : st.alertCooldowns.get (s ++ "_error") with _ | t
  · simp [IntegrationMonitor.log, shouldLog_error, IntegrationMonitor.checkAlerts,
      hen, hlast, IntegrationMonitor.mkLogEntry]
  · have h := hready t hlast
    simp [IntegrationMonitor.log, shouldLog_error, IntegrationMonitor.checkAlerts,
      hen, hlast, not_lt.mpr h, IntegrationMonitor.mkLogEntry]

/-- C8: with alerting enabled and no live cooldown for the service, two
error-level log entries for the same service within one cooldown window
produce exactly one alert event — the first fires the alert and records the
cooldown timestamp, any further error-kind trigger inside the window is
silently suppressed, and a trigger after the window has elapsed fires
again. -/
theorem log_error_alert_cooldown (cfg : MonitoringConfig) (st0 : MonitorState)
    (s op1 m1 op2 m2 : String) (n1 n2 : ℤ)
    (hen : cfg.alertEnabled = true)
    (hcd : st0.alertCooldowns.get (s ++ "_error") = none)
    (h12 : n2 - n1 < cfg.alertCooldown) :
    ∀ st1 st2,
    IntegrationMonitor.log cfg n1 LogLevel.error s op1 m1 none none none none
      none none st0 = st1 →
    IntegrationMonitor.log cfg n2 LogLevel.error s op2 m2 none none none none
      none none st1 = st2 →
    st2.alerts.length = st0.alerts.length + 1 ∧
    st2.alertCooldowns.get (s ++ "_error") = some n1 ∧
    (∀ (n3 : ℤ) (op3 m3 : String), n3 - n1 < cfg.alertCooldown →
      (IntegrationMonitor.log cfg n3 LogLevel.error s op3 m3 none none none
        none none none st2).alerts = st2.alerts) ∧
    (∀ (n3 : ℤ) (op3 m3 : String), cfg.alertCooldown ≤ n3 - n1 →
      (IntegrationMonitor.log cfg n3 LogLevel.error s op3 m3 none none none
        none none none st2).alerts.length = st0.alerts.length + 2) := by
  intro st1 st2 h1 h2
  have hready1 : ∀ t, st0.alertCooldowns.get (s ++ "_error") = some t →
      cfg.alertCooldown ≤ n1 - t := by
    intro t ht
    rw [hcd] at ht
    cases ht
  rw [log_error_fires cfg n1 s op1 m1 st0 hen hready1] at h1
  have hget1 : st1.alertCooldowns.get (s ++ "_error") = some n1 := by
    rw [← h1]
    exact JsMap.get_set_self _ _ _
  have halerts1 : st1.alerts = st0.alerts ++
      [⟨s, "high_error_rate", n1, "High error rate detected in " ++ s,
        "warning", m1, op1, n1⟩] := by
    rw [← h1]
  rw [log_error_suppressed cfg n2 s op2 m2 st1 n1 hget1 h12] at h2
  have hget2 : st2.alertCooldowns.get (s ++ "_error") = some n1 := by
    rw [← h2]
    exact hget1
  have halerts2 : st2.alerts = st0.alerts ++
      [⟨s, "high_error_rate", n1, "High error rate detected in " ++ s,
        "warning", m1, op1, n1⟩] := by
    rw [← h2]
    exact halerts1
  refine ⟨by rw [halerts2]; simp, hget2, ?_, ?_⟩
  · intro n3 op3 m3 h3
    rw [log_error_suppressed cfg n3 s op3 m3 st2 n1 hget2 h3]
  · intro n3 op3 m3 h3
    have hready3 : ∀ t, st2.alertCooldowns.get (s ++ "_error") = some t →
        cfg.alertCooldown ≤ n3 - t := by
      intro t ht
      rw [hget2] at ht
      cases ht
      exact h3
    rw [log_error_fires cfg n3 s op3 m3 st2 hen hready3]
    rw [halerts2]
    simp

/-- Witness for C8: the repository test configuration (cooldown 300000 ms),
an empty monitor state, and two error entries for service `svc` at 0 ms and
100 ms; exactly one alert is emitted and the cooldown stamp is 0. -/
theorem log_error_alert_cooldown_witness :
    (IntegrationMonitor.log ⟨.info, 7, 1000, true, 300000⟩ 100 LogLevel.error
      "svc" "op" "m2" none none none none none none
      (IntegrationMonitor.log ⟨.info, 7, 1000, true, 300000⟩ 0 LogLevel.error
        "svc" "op" "m1" none none none none none none
        ⟨[], [], []⟩)).alerts.length = 0 + 1 := by
  exact (log_error_alert_cooldown ⟨.info, 7, 1000, true, 300000⟩ ⟨[], [], []⟩
    "svc" "op" "m1" "op" "m2" 0 100 rfl rfl (by decide) _ _ rfl rfl).1

/-- The retry loop makes between `i + 1` and `i + remaining + 1` attempts
when started at attempt index `i` with `remaining` further attempts
allowed. -/
theorem retryGo_attempts_bounds (api : APIConfig)
    (oracle : ℕ → Except HttpError HttpResponse) (now : ℤ) :
    ∀ (remaining i : ℕ) (m : IntegrationMetrics),
      i + 1 ≤ (IntegrationLayer.retryGo api oracle now m i remaining).attempts ∧
      (IntegrationLayer.retryGo api oracle now m i remaining).attempts ≤
        i + remaining + 1 := by
  intro remaining
  induction remaining with
  | zero =>
      intro i m
      cases h : oracle i <;> simp [IntegrationLayer.retryGo, h]
  | succ n ih =>
      intro i m
      cases h : oracle i with
      | ok r => simp [IntegrationLayer.retryGo, h]
      | error e =>
          have := ih (i + 1)
            (IntegrationLayer.recordFailure
              { m with totalRequests := m.totalRequests + 1 } e now)
          simp only [IntegrationLayer.retryGo, h]
          omega

/-- The backoff delays awaited by the retry loop started at attempt index
`i` are exactly `retryDelay * 2 ^ j` for the attempt indices `j` that were
followed by another attempt. -/
theorem retryGo_delays (api : APIConfig)
    (oracle : ℕ → Except HttpError HttpResponse) (now : ℤ) :
    ∀ (remaining i : ℕ) (m : IntegrationMetrics),
      (IntegrationLayer.retryGo api oracle now m i remaining).delays =
        (List.range' i
          ((IntegrationLayer.retryGo api oracle now m i remaining).attempts
            - 1 - i)).map (fun j => api.retryDelay * 2 ^ j) := by
  intro remaining
  induction remaining with
  | zero =>
      intro i m
      cases h : oracle i <;> simp [IntegrationLayer.retryGo, h]
  | succ n ih =>
      intro i m
      cases h : oracle i with
      | ok r => simp [IntegrationLayer.retryGo, h]
      | error e =>
          simp only [IntegrationLayer.retryGo, h]
          have hb := retryGo_attempts_bounds api oracle now n (i + 1)
            (IntegrationLayer.recordFailure
              { m with totalRequests := m.totalRequests + 1 } e now)
          have harith :
              (IntegrationLayer.retryGo api oracle now
                (IntegrationLayer.recordFailure
                  { m with totalRequests := m.totalRequests + 1 } e now)
                (i + 1) n).attempts - 1 - i =
              ((IntegrationLayer.retryGo api oracle now
                (IntegrationLayer.recordFailure
                  { m with totalRequests := m.totalRequests + 1 } e now)
                (i + 1) n).attempts - 1 - (i + 1)) + 1 := by
            omega
          rw [harith, List.range'_succ, List.map_cons]
          exact congrArg _ (ih (i + 1) _)

/-- If the oracle first succeeds at attempt `j` (all earlier attempts from
`i` on failing), the retry loop started at `i` returns that success after
exactly `j + 1` total attempts. -/
theorem retryGo_first_success (api : APIConfig)
    (oracle : ℕ → Except HttpError HttpResponse) (now : ℤ) :
    ∀ (remaining i j : ℕ) (r : HttpResponse) (m : IntegrationMetrics),
      i ≤ j → j ≤ i + remaining → oracle j = .ok r →
      (∀ l, i ≤ l → l < j → ∃ e, oracle l = .error e) →
      (IntegrationLayer.retryGo api oracle now m i remaining).result = .ok r ∧
      (IntegrationLayer.retryGo api oracle now m i remaining).attempts = j + 1 := by
  intro remaining
  induction remaining with
  | zero =>
      intro i j r m hij hji hok hfail
      have : j = i := by omega
      subst this
      simp [IntegrationLayer.retryGo, hok]
  | succ n ih =>
      intro i j r m hij hji hok hfail
      by_cases hji' : j = i
      · subst hji'
        simp [IntegrationLayer.retryGo, hok]
      · obtain ⟨e, he⟩ := hfail i (le_refl i) (by omega)
        simp only [IntegrationLayer.retryGo, he]
        exact ih (i + 1) j r _ (by omega) (by omega) hok
          (fun l hl hlj => hfail l (by omega) hlj)

/-- If every attempt from `i` through `i + remaining` fails, the retry loop
surfaces the error of the final attempt after `i + remaining + 1` total
attempts. -/
theorem retryGo_all_fail (api : APIConfig)
    (oracle : ℕ → Except HttpError HttpResponse) (now : ℤ) (es : ℕ → HttpError) :
    ∀ (remaining i : ℕ) (m : IntegrationMetrics),
      (∀ l, i ≤ l → l ≤ i + remaining → oracle l = .error (es l)) →
      (IntegrationLayer.retryGo api oracle now m i remaining).result =
        .error (es (i + remaining)) ∧
      (IntegrationLayer.retryGo api oracle now m i remaining).attempts =
        i + remaining + 1 := by
  intro remaining
  induction remaining with
  | zero =>
      intro i m hfail
      have h := hfail i (le_refl i) (by omega)
      simp [IntegrationLayer.retryGo, h]
  | succ n ih =>
      intro i m hfail
      have h := hfail i (le_refl i) (by omega)
      simp only [IntegrationLayer.retryGo, h]
      have := ih (i + 1)
        (IntegrationLayer.recordFailure
          { m with totalRequests := m.totalRequests + 1 } (es i) now)
        (fun l hl hln => hfail l (by omega) (by omega))
      constructor
      · rw [this.1]
        exact congrArg _ (congrArg _ (by omega))
      · rw [this.2]
        omega

/-- C2: for every call with `retryAttempts = k`, the executor attempts the
underlying request at most `k + 1` times; the delays awaited between
consecutive attempts are `retryDelay * 2 ^ i` for `i = 0, 1, ...`
(exponential backoff); the first successful attempt returns immediately
(a success at attempt index `j` after `j` failures means exactly `j + 1`
attempts); and if all `k + 1` attempts fail the error of the last attempt
is the one surfaced. -/
theorem makeRequestWithRetry_retry_spec (api : APIConfig)
    (oracle : ℕ → Except HttpError HttpResponse) (now : ℤ)
    (m : IntegrationMetrics) :
    (IntegrationLayer.makeRequestWithRetry api oracle now m).attempts ≤
      api.retryAttempts + 1 ∧
    (IntegrationLayer.makeRequestWithRetry api oracle now m).delays =
      (List.range
        ((IntegrationLayer.makeRequestWithRetry api oracle now m).attempts - 1)).map
        (fun i => api.retryDelay * 2 ^ i) ∧
    (∀ (j : ℕ) (r : HttpResponse), j ≤ api.retryAttempts → oracle j = .ok r →
      (∀ l, l < j → ∃ e, oracle l = .error e) →
      (IntegrationLayer.makeRequestWithRetry api oracle now m).result = .ok r ∧
      (IntegrationLayer.makeRequestWithRetry api oracle now m).attempts = j + 1) ∧
    (∀ es : ℕ → HttpError,
      (∀ l, l ≤ api.retryAttempts → oracle l = .error (es l)) →
      (IntegrationLayer.makeRequestWithRetry api oracle now m).result =
        .error (es api.retryAttempts) ∧
      (IntegrationLayer.makeRequestWithRetry api oracle now m).attempts =
        api.retryAttempts + 1) := by
  refine ⟨?_, ?_, ?_, ?_⟩
  · have h := retryGo_attempts_bounds api oracle now api.retryAttempts 0 m
    simpa [IntegrationLayer.makeRequestWithRetry] using h.2
  · have h := retryGo_delays api oracle now api.retryAttempts 0 m
    simpa [IntegrationLayer.makeRequestWithRetry, List.range_eq_range'] using h
  · intro j r hj hok hfail
    exact retryGo_first_success api oracle now api.retryAttempts 0 j r m
      (Nat.zero_le j) (by omega) hok (fun l _ hlj => hfail l hlj)
  · intro es hfail
    have h := retryGo_all_fail api oracle now es api.retryAttempts 0 m
      (fun l _ hl => hfail l (by omega))
    simpa [IntegrationLayer.makeRequestWithRetry] using h

/-- Oracle for the witness: the first two attempts fail with a network
error, the third succeeds. -/
def oracleFailFailOk : ℕ → Except HttpError HttpResponse := fun i =>
  if i < 2 then .error ⟨"network error", none⟩
  else .ok ⟨JValue.jstr "payload", 200, none⟩

/-- Witness for C2 at the specification's own example: `retryAttempts = 2`,
a call that fails twice then succeeds returns the success after exactly 3
underlying attempts, with backoff delays `retryDelay * 1` then
`retryDelay * 2` (1000 then 2000 ms at `retryDelay = 1000`). -/
theorem makeRequestWithRetry_retry_witness :
    (IntegrationLayer.makeRequestWithRetry ⟨2, 1000⟩ oracleFailFailOk 0
      IntegrationMetrics.init).result = .ok ⟨JValue.jstr "payload", 200, none⟩ ∧
    (IntegrationLayer.makeRequestWithRetry ⟨2, 1000⟩ oracleFailFailOk 0
      IntegrationMetrics.init).attempts = 3 ∧
    (IntegrationLayer.makeRequestWithRetry ⟨2, 1000⟩ oracleFailFailOk 0
      IntegrationMetrics.init).delays = [1000, 2000] := by
  have h := makeRequestWithRetry_retry_spec ⟨2, 1000⟩ oracleFailFailOk 0
    IntegrationMetrics.init
  have hc := h.2.2.1 2 ⟨JValue.jstr "payload", 200, none⟩ (by decide) rfl
    (fun l hl => ⟨⟨"network error", none⟩, by simp [oracleFailFailOk, hl]⟩)
  refine ⟨hc.1, hc.2, ?_⟩
  have hd := h.2.1
  rw [hc.2] at hd
  simpa [List.range_succ] using hd

/-- Demo executor configuration (the test suite's: 2 retries, 1000 ms
delay). -/
def demoApi : APIConfig := ⟨2, 1000⟩

/-- Demo rate-limit configuration (the constructor default: 100 requests per
60000 ms). -/
def demoRl : RateLimitConfig := ⟨60000, 100⟩

/-- Demo cache configuration (the constructor default: enabled, 300000 ms
TTL, 1000 entries, LRU). -/
def demoCc : CacheConfig := ⟨true, 300000, 1000, .lru⟩

/-- Demo oracle: every underlying HTTP attempt succeeds with status 200 and
body `"fresh"`; the echoed request config carries no metadata (nothing in
the repository ever attaches one). -/
def demoOkOracle : ℕ → Except HttpError HttpResponse :=
  fun _ => .ok ⟨JValue.jstr "fresh", 200, none⟩

/-- Demo non-cacheable call: a POST with a JSON body. -/
def demoPostCfg : IntegrationLayer.CallConfig :=
  ⟨some "POST", "/pay", JValue.jundef, JValue.jobj [("amount", JValue.jnum 5)], none⟩

/-- C6 (code bug): `updateAverageResponseTime` does implement the claimed
recurrence `avg' = (avg*(n-1) + newSample)/n` with `n` the post-increment
successful + failed count (first conjunct) — but the sample `recordSuccess`
feeds it is `response.config.metadata?.responseTime || 0`, and no interceptor
in the repository ever sets `config.metadata`, so every sample is 0 and the
recorded average stays 0 no matter what the calls' actual response times are
(second conjunct, for any starting zero average).  Concretely (third and
fourth conjuncts): two successful calls through `request`, each with an
actual elapsed response time of 100 ms (`responseTime = some 100` in the
returned envelope), leave `averageResponseTime = 0`, not the arithmetic mean
100 the claim states. -/
theorem averageResponseTime_always_zero :
    (∀ (m : IntegrationMetrics) (s : ℚ),
      (IntegrationLayer.updateAverageResponseTime m s).averageResponseTime =
        (m.averageResponseTime *
            (((m.successfulRequests : ℚ) + (m.failedRequests : ℚ)) - 1) + s) /
          ((m.successfulRequests : ℚ) + (m.failedRequests : ℚ))) ∧
    (∀ (m : IntegrationMetrics) (d : JValue) (status : ℤ),
      (IntegrationLayer.recordSuccess { m with averageResponseTime := 0 }
        ⟨d, status, none⟩).averageResponseTime = 0) ∧
    (IntegrationLayer.request demoApi demoRl demoCc demoPostCfg demoOkOracle 0 100
        ⟨IntegrationMetrics.init, [], []⟩ =
      .ok (⟨true, some (JValue.jstr "fresh"), none, some 200, some 100, none⟩,
        ⟨⟨1, 1, 0, 0, 0, 0, 0, none, none⟩, [], [0]⟩, ⟨1, [], none⟩)) ∧
    ((IntegrationLayer.request demoApi demoRl demoCc demoPostCfg demoOkOracle 200 300
        ⟨⟨1, 1, 0, 0, 0, 0, 0, none, none⟩, [], [0]⟩).map
      (fun out => (out.2.1.metrics.successfulRequests,
        out.2.1.metrics.averageResponseTime, out.1.responseTime)) =
      .ok (2, 0, some 100)) := by
  have hp : IntegrationLayer.strToLower "POST" = "post" := by decide
  refine ⟨fun m s => rfl, ?_, ?_, ?_⟩ <;>
    simp [IntegrationLayer.request, IntegrationLayer.requestCore,
      IntegrationLayer.generateCacheKey, jsonStringify, IntegrationLayer.checkRateLimit,
      IntegrationLayer.makeRequestWithRetry, IntegrationLayer.retryGo,
      IntegrationLayer.recordSuccess, IntegrationLayer.updateAverageResponseTime,
      IntegrationMetrics.init, demoApi, demoRl, demoCc, demoPostCfg, demoOkOracle,
      IntegrationLayer.CallConfig.isGet, hp, Except.map,
      JValue.hasBigInt, JValue.hasBigIntFields, JValue.hasBigIntList]

/-- A GET call whose body is a BigInt — `JSON.stringify` cannot serialize
it. -/
def demoBigCfg : IntegrationLayer.CallConfig :=
  ⟨some "GET", "/x", JValue.jundef, JValue.jbigint 1, none⟩

/-- Counterexample to C1 as stated: `generateCacheKey` runs before the `try`
block of `request`, so a `CallConfig` whose data `JSON.stringify` cannot
serialize (here a BigInt payload) makes `request` raise a `TypeError` past
its boundary instead of returning a `{success:false}` Result. -/
theorem request_raises_on_bigint :
    IntegrationLayer.request demoApi demoRl demoCc demoBigCfg demoOkOracle 0 0
      ⟨IntegrationMetrics.init, [], []⟩ =
    .error "TypeError: Do not know how to serialize a BigInt" := by
  rfl

/-- Everything after the cache lookup in `request` (the part inside the
`try`) always yields an `APIResponse`: a success carries no error field; a
failure carries an error message; and when every underlying attempt fails,
the envelope is exactly `{success: false, error: lastError.message,
statusCode: lastError.response?.status, responseTime}`. -/
theorem requestCore_result (api : APIConfig) (rl : RateLimitConfig)
    (cc : CacheConfig) (cfg : IntegrationLayer.CallConfig)
    (oracle : ℕ → Except HttpError HttpResponse) (t0 t1 : ℤ) (key : String)
    (st : IntegrationLayer.LayerState) :
    ((IntegrationLayer.requestCore api rl cc cfg oracle t0 t1 key st).1.success = true →
      (IntegrationLayer.requestCore api rl cc cfg oracle t0 t1 key st).1.error = none) ∧
    ((IntegrationLayer.requestCore api rl cc cfg oracle t0 t1 key st).1.success = false →
      ((IntegrationLayer.requestCore api rl cc cfg oracle t0 t1 key st).1.error).isSome
        = true) ∧
    (∀ es : ℕ → HttpError,
      (∀ l, l ≤ api.retryAttempts → oracle l = .error (es l)) →
      (IntegrationLayer.requestCore api rl cc cfg oracle t0 t1 key st).1 =
        ⟨false, none, some (es api.retryAttempts).message,
          (es api.retryAttempts).status, some (t1 - t0), none⟩) := by
  cases hres : (IntegrationLayer.makeRequestWithRetry api oracle t1
      (IntegrationLayer.checkRateLimit rl t0 st.metrics st.window).metrics).result with
  | ok r =>
      refine ⟨fun _ => ?_, fun h => ?_, fun es hfail => ?_⟩
      · simp [IntegrationLayer.requestCore, hres]
      · simp [IntegrationLayer.requestCore, hres] at h
      · have h2 := retryGo_all_fail api oracle t1 es api.retryAttempts 0
          (IntegrationLayer.checkRateLimit rl t0 st.metrics st.window).metrics
          (fun l _ hl => hfail l (by omega))
        rw [IntegrationLayer.makeRequestWithRetry] at hres
        rw [h2.1] at hres
        cases hres
  | error e =>
      refine ⟨fun h => ?_, fun _ => ?_, fun es hfail => ?_⟩
      · simp [IntegrationLayer.requestCore, hres] at h
      · simp [IntegrationLayer.requestCore, hres]
      · have h2 := retryGo_all_fail api oracle t1 es api.retryAttempts 0
          (IntegrationLayer.checkRateLimit rl t0 st.metrics st.window).metrics
          (fun l _ hl => hfail l (by omega))
        rw [IntegrationLayer.makeRequestWithRetry] at hres
        rw [h2.1] at hres
        cases hres
        simp [IntegrationLayer.requestCore, IntegrationLayer.makeRequestWithRetry, h2.1]

/-- C1 (amended: requires the cache-key serialization to succeed): for every
CallConfig whose `JSON.stringify`-based cache key can be computed, `request`
returns a Result and never raises; a successful Result carries no error, a
failed Result always carries an error message, and when every underlying
attempt fails (and no fresh truthy cache hit short-circuits the call) the
Result is exactly `{success: false, error: lastError.message, statusCode:
lastError.response?.status, responseTime}`.  (Unamended, the claim is false:
the key is computed before the `try`, see the BigInt counterexample.) -/
theorem request_never_raises_when_serializable (api : APIConfig)
    (rl : RateLimitConfig) (cc : CacheConfig)
    (cfg : IntegrationLayer.CallConfig)
    (oracle : ℕ → Except HttpError HttpResponse) (t0 t1 : ℤ)
    (st : IntegrationLayer.LayerState) (k : String)
    (hk : IntegrationLayer.generateCacheKey cfg.method cfg.url cfg.params
      cfg.data = some k) :
    ∃ res st' tr,
      IntegrationLayer.request api rl cc cfg oracle t0 t1 st = .ok (res, st', tr) ∧
      (res.success = true → res.error = none) ∧
      (res.success = false → res.error.isSome = true) ∧
      (∀ es : ℕ → HttpError,
        (∀ l, l ≤ api.retryAttempts → oracle l = .error (es l)) →
        ((cc.enabled && cfg.isGet) = true →
          (IntegrationLayer.getFromCache cc t0 k st.cache).1.truthy = false) →
        res = ⟨false, none, some (es api.retryAttempts).message,
          (es api.retryAttempts).status, some (t1 - t0), none⟩) := by
  by_cases hcg : (cc.enabled && cfg.isGet) = true
  · by_cases htr : (IntegrationLayer.getFromCache cc t0 k st.cache).1.truthy = true
    · have heq : IntegrationLayer.request api rl cc cfg oracle t0 t1 st =
          .ok (⟨true, some (IntegrationLayer.getFromCache cc t0 k st.cache).1,
              none, none, some (t1 - t0), some true⟩,
            ⟨{ st.metrics with cacheHits := st.metrics.cacheHits + 1 },
              (IntegrationLayer.getFromCache cc t0 k st.cache).2, st.window⟩,
            ⟨0, [], none⟩) := by
        simp [IntegrationLayer.request, hk, hcg, htr]
      exact ⟨_, _, _, heq, fun _ => rfl, fun h => by simp at h,
        fun es hf hnohit => absurd (hnohit hcg) (by simp [htr])⟩
    · have h := requestCore_result api rl cc cfg oracle t0 t1 k
        ⟨{ st.metrics with cacheMisses := st.metrics.cacheMisses + 1 },
          (IntegrationLayer.getFromCache cc t0 k st.cache).2, st.window⟩
      have heq : IntegrationLayer.request api rl cc cfg oracle t0 t1 st =
          .ok (IntegrationLayer.requestCore api rl cc cfg oracle t0 t1 k
            ⟨{ st.metrics with cacheMisses := st.metrics.cacheMisses + 1 },
              (IntegrationLayer.getFromCache cc t0 k st.cache).2, st.window⟩) := by
        simp [IntegrationLayer.request, hk, hcg, htr]
      exact ⟨_, _, _, heq, h.1, h.2.1, fun es hf _ => h.2.2 es hf⟩
  · have h := requestCore_result api rl cc cfg oracle t0 t1 k st
    have heq : IntegrationLayer.request api rl cc cfg oracle t0 t1 st =
        .ok (IntegrationLayer.requestCore api rl cc cfg oracle t0 t1 k st) := by
      simp [IntegrationLayer.request, hk, hcg]
    exact ⟨_, _, _, heq, h.1, h.2.1, fun es hf _ => h.2.2 es hf⟩

/-- Demo oracle whose every attempt fails with a 500 error. -/
def demoFailOracle : ℕ → Except HttpError HttpResponse :=
  fun _ => .error ⟨"boom", some 500⟩

/-- Witness for C1 (amended) at concrete inputs: a serializable POST call
returns a Result (no raise) under an all-success oracle, and under an
all-fail oracle returns exactly
`{success: false, error: "boom", statusCode: 500, responseTime: 100}`. -/
theorem request_never_raises_witness :
    ((IntegrationLayer.request demoApi demoRl demoCc demoPostCfg demoOkOracle 0 100
      ⟨IntegrationMetrics.init, [], []⟩).toOption.isSome = true) ∧
    ((IntegrationLayer.request demoApi demoRl demoCc demoPostCfg demoFailOracle 0 100
      ⟨IntegrationMetrics.init, [], []⟩).map (fun out => out.1) =
      .ok ⟨false, none, some "boom", some 500, some 100, none⟩) := by
  constructor
  · obtain ⟨res, st', tr, heq, -, -, -⟩ :=
      request_never_raises_when_serializable demoApi demoRl demoCc demoPostCfg
        demoOkOracle 0 100 ⟨IntegrationMetrics.init, [], []⟩
        ((IntegrationLayer.generateCacheKey demoPostCfg.method demoPostCfg.url
          demoPostCfg.params demoPostCfg.data).getD "") rfl
    rw [heq]
    rfl
  · obtain ⟨res, st', tr, heq, -, -, h4⟩ :=
      request_never_raises_when_serializable demoApi demoRl demoCc demoPostCfg
        demoFailOracle 0 100 ⟨IntegrationMetrics.init, [], []⟩
        ((IntegrationLayer.generateCacheKey demoPostCfg.method demoPostCfg.url
          demoPostCfg.params demoPostCfg.data).getD "") rfl
    have hres := h4 (fun _ => ⟨"boom", some 500⟩) (fun l _ => rfl)
      (fun hcg => absurd hcg (by decide))
    rw [heq]
    simp [Except.map, hres]

/-- A cacheable GET whose cache entry is fresh (within TTL) and truthy
returns immediately from the cache: the exact envelope, state (hit counter
and entry hit count bumped) and empty trace. -/
theorem request_cacheHit_eq (api : APIConfig) (rl : RateLimitConfig)
    (cc : CacheConfig) (cfg : IntegrationLayer.CallConfig)
    (oracle : ℕ → Except HttpError HttpResponse) (t0 t1 : ℤ)
    (st : IntegrationLayer.LayerState) (k : String) (e : CacheEntry)
    (hen : cc.enabled = true) (hget : cfg.isGet = true)
    (hk : IntegrationLayer.generateCacheKey cfg.method cfg.url cfg.params
      cfg.data = some k)
    (hlook : JsMap.get st.cache k = some e)
    (httl : t0 - e.timestamp ≤ cc.ttl)
    (htruthy : e.data.truthy = true) :
    IntegrationLayer.request api rl cc cfg oracle t0 t1 st =
      .ok (⟨true, some e.data, none, none, some (t1 - t0), some true⟩,
        ⟨{ st.metrics with cacheHits := st.metrics.cacheHits + 1 },
          JsMap.set st.cache k ⟨e.data, e.timestamp, e.hits + 1⟩, st.window⟩,
        ⟨0, [], none⟩) := by
  simp [IntegrationLayer.request, hk, hen, hget, IntegrationLayer.getFromCache,
    hlook, not_lt.mpr httl, htruthy]

/-- C4 (amended: the stored value must be truthy): a cacheable GET whose
response was stored in the cache and re-issued while `now - timestamp ≤ ttl`
returns `cached = true` with data identical to the stored value — provided
the stored value is truthy, since the hit test `if (cached)` treats a stored
falsy value (null, false, 0, empty string) as a miss; and once
`now - entry.timestamp > ttl`, a read of the same key returns absent
(`null`) and evicts the expired entry. -/
theorem cache_ttl_roundtrip (api : APIConfig) (rl : RateLimitConfig)
    (cc : CacheConfig) (cfg : IntegrationLayer.CallConfig)
    (oracle : ℕ → Except HttpError HttpResponse) (t0 t1 : ℤ)
    (st : IntegrationLayer.LayerState) (k : String) (e : CacheEntry)
    (hen : cc.enabled = true) (hget : cfg.isGet = true)
    (hk : IntegrationLayer.generateCacheKey cfg.method cfg.url cfg.params
      cfg.data = some k)
    (hlook : JsMap.get st.cache k = some e)
    (httl : t0 - e.timestamp ≤ cc.ttl)
    (htruthy : e.data.truthy = true) :
    (∃ st' tr, IntegrationLayer.request api rl cc cfg oracle t0 t1 st =
      .ok (⟨true, some e.data, none, none, some (t1 - t0), some true⟩, st', tr)) ∧
    (∀ (cache : JsMap CacheEntry) (key : String) (item : CacheEntry) (now : ℤ),
      JsMap.get cache key = some item → cc.ttl < now - item.timestamp →
      IntegrationLayer.getFromCache cc now key cache =
        (JValue.jnull, JsMap.del cache key)) := by
  constructor
  · exact ⟨_, _, request_cacheHit_eq api rl cc cfg oracle t0 t1 st k e hen hget
      hk hlook httl htruthy⟩
  · intro cache key item now h1 h2
    simp [IntegrationLayer.getFromCache, h1, h2]

/-- Demo cacheable call: a GET with no params and no body. -/
def demoGetCfg : IntegrationLayer.CallConfig :=
  ⟨some "GET", "/x", JValue.jundef, JValue.jundef, none⟩

/-- The cache key `request` computes for `demoGetCfg`. -/
def demoGetKey : String :=
  (IntegrationLayer.generateCacheKey demoGetCfg.method demoGetCfg.url
    demoGetCfg.params demoGetCfg.data).getD ""

/-- Witness for C4 (amended): a truthy value `"v"` stored at time 0 and
re-read at time 50 (TTL 300000) comes back `cached = true` with identical
data; the same entry read at time 300001 (beyond TTL) reads as absent and
is evicted. -/
theorem cache_ttl_roundtrip_witness :
    ((IntegrationLayer.request demoApi demoRl demoCc demoGetCfg demoOkOracle 50 50
        ⟨IntegrationMetrics.init, [(demoGetKey, ⟨JValue.jstr "v", 0, 0⟩)], []⟩).map
      (fun out => out.1) =
      .ok ⟨true, some (JValue.jstr "v"), none, none, some 0, some true⟩) ∧
    (IntegrationLayer.getFromCache demoCc 300001 demoGetKey
        [(demoGetKey, ⟨JValue.jstr "v", 0, 0⟩)] = (JValue.jnull, [])) := by
  have h := cache_ttl_roundtrip demoApi demoRl demoCc demoGetCfg demoOkOracle 50 50
    ⟨IntegrationMetrics.init, [(demoGetKey, ⟨JValue.jstr "v", 0, 0⟩)], []⟩
    demoGetKey ⟨JValue.jstr "v", 0, 0⟩ rfl (by decide) rfl rfl (by decide) rfl
  constructor
  · obtain ⟨st', tr, heq⟩ := h.1
    rw [heq]
    rfl
  · have h2 := h.2 [(demoGetKey, ⟨JValue.jstr "v", 0, 0⟩)] demoGetKey
      ⟨JValue.jstr "v", 0, 0⟩ 300001 rfl (by decide)
    simpa [JsMap.del] using h2

/-- Counterexample to C4 as stated: a value CAN be stored and yet not come
back from the cache.  With `null` stored under the key (fresh, well within
TTL: read at 50, stored at 0, TTL 300000), the hit test `if (cached)` sees a
falsy value, so the re-issued GET is NOT served from the cache: it returns
`cached` absent with freshly fetched data (`"fresh"`, not the stored
`null`) and performs a real HTTP attempt (`totalRequests` becomes 1). -/
theorem request_cached_null_miss :
    ((IntegrationLayer.request demoApi demoRl demoCc demoGetCfg demoOkOracle 50 60
        ⟨IntegrationMetrics.init, [(demoGetKey, ⟨JValue.jnull, 0, 0⟩)], []⟩).map
      (fun out => (out.1.cached, out.1.data, out.2.1.metrics.totalRequests))) =
    .ok (none, some (JValue.jstr "fresh"), 1) := by
  have hg : IntegrationLayer.strToLower "GET" = "get" := by decide
  simp [IntegrationLayer.request, IntegrationLayer.requestCore,
    IntegrationLayer.generateCacheKey, jsonStringify, IntegrationLayer.checkRateLimit,
    IntegrationLayer.makeRequestWithRetry, IntegrationLayer.retryGo,
    IntegrationLayer.recordSuccess, IntegrationLayer.updateAverageResponseTime,
    IntegrationLayer.getFromCache, IntegrationLayer.setCache, JsMap.get, JsMap.set,
    IntegrationMetrics.init, demoApi, demoRl, demoCc, demoGetCfg, demoGetKey,
    demoOkOracle, IntegrationLayer.CallConfig.isGet, hg, Except.map,
    JValue.truthy, JValue.hasBigInt, JValue.hasBigIntFields, JValue.hasBigIntList]

/-- C10 (amended: the stored value must also be truthy): a GET whose cache
lookup hits — entry present, not expired, value truthy — returns a Result
with `success = true`, `cached = true` and NO `statusCode` field, increments
only the `cacheHits` counter (totalRequests, successfulRequests,
failedRequests and cacheMisses are unchanged), leaves the rate-limit window
untouched, and performs no HTTP attempt, no backoff and no rate-limit
admission wait. -/
theorem request_cache_hit_frame (api : APIConfig) (rl : RateLimitConfig)
    (cc : CacheConfig) (cfg : IntegrationLayer.CallConfig)
    (oracle : ℕ → Except HttpError HttpResponse) (t0 t1 : ℤ)
    (st : IntegrationLayer.LayerState) (k : String) (e : CacheEntry)
    (hen : cc.enabled = true) (hget : cfg.isGet = true)
    (hk : IntegrationLayer.generateCacheKey cfg.method cfg.url cfg.params
      cfg.data = some k)
    (hlook : JsMap.get st.cache k = some e)
    (httl : t0 - e.timestamp ≤ cc.ttl)
    (htruthy : e.data.truthy = true) :
    ∃ res st' tr,
      IntegrationLayer.request api rl cc cfg oracle t0 t1 st = .ok (res, st', tr) ∧
      res.success = true ∧ res.cached = some true ∧ res.statusCode = none ∧
      res.data = some e.data ∧
      st'.metrics.cacheHits = st.metrics.cacheHits + 1 ∧
      st'.metrics.totalRequests = st.metrics.totalRequests ∧
      st'.metrics.successfulRequests = st.metrics.successfulRequests ∧
      st'.metrics.failedRequests = st.metrics.failedRequests ∧
      st'.metrics.cacheMisses = st.metrics.cacheMisses ∧
      st'.window = st.window ∧
      tr.attempts = 0 ∧ tr.delays = [] ∧ tr.rateWait = none := by
  refine ⟨_, _, _, request_cacheHit_eq api rl cc cfg oracle t0 t1 st k e hen hget
    hk hlook httl htruthy, ?_⟩
  exact ⟨rfl, rfl, rfl, rfl, rfl, rfl, rfl, rfl, rfl, rfl, rfl, rfl, rfl⟩

/-- Witness for C10 (amended): a truthy value `7` stored at time 0, read at
time 50: the envelope has no status code, only `cacheHits` moves (0 to 1),
the window stays empty, and zero HTTP attempts occur. -/
theorem request_cache_hit_frame_witness :
    ((IntegrationLayer.request demoApi demoRl demoCc demoGetCfg demoOkOracle 50 50
        ⟨IntegrationMetrics.init, [(demoGetKey, ⟨JValue.jnum 7, 0, 0⟩)], []⟩).map
      (fun out => (out.1.statusCode, out.1.cached, out.2.1.metrics.cacheHits,
        out.2.1.metrics.totalRequests, out.2.1.window, out.2.2.attempts))) =
    .ok (none, some true, 1, 0, [], 0) := by
  obtain ⟨res, st', tr, heq, h⟩ :=
    request_cache_hit_frame demoApi demoRl demoCc demoGetCfg demoOkOracle 50 50
      ⟨IntegrationMetrics.init, [(demoGetKey, ⟨JValue.jnum 7, 0, 0⟩)], []⟩
      demoGetKey ⟨JValue.jnum 7, 0, 0⟩ rfl (by decide) rfl rfl (by decide)
      (by decide)
  rw [heq]
  simp only [Except.map]
  rw [h.2.2.1, h.2.1, h.2.2.2.2.1, h.2.2.2.2.2.1, h.2.2.2.2.2.2.2.2.2.1,
    h.2.2.2.2.2.2.2.2.2.2.1]
  rfl

/-- Counterexample to C10 as stated: with the falsy value `0` stored under
the key (entry present and not expired — stored at 0, read at 50, TTL
300000), `request` does NOT take the hit path: `cached` is absent, a status
code IS present, `cacheHits` stays 0 while `cacheMisses` and `totalRequests`
are incremented, and one HTTP attempt occurs. -/
theorem request_cache_hit_frame_violation :
    ((IntegrationLayer.request demoApi demoRl demoCc demoGetCfg demoOkOracle 50 60
        ⟨IntegrationMetrics.init, [(demoGetKey, ⟨JValue.jnum 0, 0, 0⟩)], []⟩).map
      (fun out => (out.1.cached, out.1.statusCode, out.2.1.metrics.cacheHits,
        out.2.1.metrics.cacheMisses, out.2.1.metrics.totalRequests,
        out.2.2.attempts))) =
    .ok (none, some 200, 0, 1, 1, 1) := by
  have hg : IntegrationLayer.strToLower "GET" = "get" := by decide
  simp [IntegrationLayer.request, IntegrationLayer.requestCore,
    IntegrationLayer.generateCacheKey, jsonStringify, IntegrationLayer.checkRateLimit,
    IntegrationLayer.makeRequestWithRetry, IntegrationLayer.retryGo,
    IntegrationLayer.recordSuccess, IntegrationLayer.updateAverageResponseTime,
    IntegrationLayer.getFromCache, IntegrationLayer.setCache, JsMap.get, JsMap.set,
    IntegrationMetrics.init, demoApi, demoRl, demoCc, demoGetCfg, demoGetKey,
    demoOkOracle, IntegrationLayer.CallConfig.isGet, hg, Except.map,
    JValue.truthy, JValue.hasBigInt, JValue.hasBigIntFields, JValue.hasBigIntList]

/-- Counterexample to C5 as stated, in two parts with `maxSize = 1` and two
distinct keys.  LRU: both keys inserted in the same millisecond (timestamp
5) — `evictLRU` looks for an entry with timestamp strictly below
`Date.now()`, finds none, evicts nothing, and the cache ends with 2 entries.
FIFO: the first-inserted key is the empty string — `if (firstKey)` is falsy,
nothing is evicted, and the cache again ends with 2 entries instead of
`maxSize = 1`. -/
theorem setCache_eviction_violation :
    ((IntegrationLayer.setCache ⟨true, 300000, 1, .lru⟩ 5 "b" (JValue.jstr "w")
      (IntegrationLayer.setCache ⟨true, 300000, 1, .lru⟩ 5 "a" (JValue.jstr "v")
        [])).length = 2) ∧
    ((IntegrationLayer.setCache ⟨true, 300000, 1, .fifo⟩ 6 "b" (JValue.jstr "w")
      (IntegrationLayer.setCache ⟨true, 300000, 1, .fifo⟩ 5 "" (JValue.jstr "v")
        [])).length = 2) := by
  exact ⟨rfl, rfl⟩

/-- One insertion of the claim's scenario: a key, the `Date.now()` reading
at its insertion, and the stored value. -/
structure CacheInsert where
  key : String
  time : ℤ
  value : JValue

/-- Performs the claim's insertion sequence: `setCache` once per element, in
order. -/
def insertAll (cc : CacheConfig) : List CacheInsert → JsMap CacheEntry →
    JsMap CacheEntry
  | [], cache => cache
  | i :: is, cache =>
      insertAll cc is (IntegrationLayer.setCache cc i.time i.key i.value cache)

/-- Splitting an insertion sequence. -/
theorem insertAll_append (cc : CacheConfig) :
    ∀ (l1 l2 : List CacheInsert) (cache : JsMap CacheEntry),
      insertAll cc (l1 ++ l2) cache = insertAll cc l2 (insertAll cc l1 cache) := by
  intro l1
  induction l1 with
  | nil => intro l2 cache; rfl
  | cons x xs ih => intro l2 cache; simp [insertAll, ih]

/-- Setting a key absent from the map appends the binding. -/
theorem JsMap.set_fresh {α : Type} :
    ∀ (m : JsMap α) (k : String) (v : α), (∀ p ∈ m, p.1 ≠ k) →
      JsMap.set m k v = m ++ [(k, v)] := by
  intro m k v h
  induction m with
  | nil => rfl
  | cons p ps ih =>
      have hp : p.1 ≠ k := h p (by simp)
      simp only [JsMap.set, if_neg hp, List.cons_append, List.cons.injEq, true_and]
      exact ih (fun q hq => h q (by simp [hq]))

/-- Inserting fresh, mutually distinct keys into a cache with room for all
of them performs no eviction: each entry is appended with its insertion
timestamp and zero hits. -/
theorem insertAll_fresh (cc : CacheConfig) :
    ∀ (l : List CacheInsert) (cache : JsMap CacheEntry),
      cache.length + l.length ≤ cc.maxSize →
      (∀ i ∈ l, ∀ p ∈ cache, p.1 ≠ i.key) →
      (l.map CacheInsert.key).Nodup →
      insertAll cc l cache =
        cache ++ l.map (fun i => (i.key, CacheEntry.mk i.value i.time 0)) := by
  intro l
  induction l with
  | nil => intro cache _ _ _; simp [insertAll]
  | cons x xs ih =>
      intro cache hlen hfresh hnodup
      rw [List.map_cons] at hnodup
      have hlt : ¬ cc.maxSize ≤ cache.length := by
        simp only [List.length_cons] at hlen
        omega
      have hset : IntegrationLayer.setCache cc x.time x.key x.value cache =
          cache ++ [(x.key, CacheEntry.mk x.value x.time 0)] := by
        rw [IntegrationLayer.setCache, if_neg hlt]
        exact JsMap.set_fresh cache x.key _ (fun p hp => hfresh x (by simp) p hp)
      rw [insertAll, hset]
      rw [ih (cache ++ [(x.key, CacheEntry.mk x.value x.time 0)])
        (by simp at hlen ⊢; omega)
        ?_ hnodup.of_cons]
      · simp
      · intro i hi p hp
        rcases List.mem_append.mp hp with hcache | hone
        · exact hfresh i (by simp [hi]) p hcache
        · have hpe : p = (x.key, CacheEntry.mk x.value x.time 0) := by
            simpa using hone
          rw [hpe]
          have hx : x.key ∉ xs.map CacheInsert.key :=
            (List.nodup_cons.mp hnodup).1
          intro hcontra
          simp only at hcontra
          exact hx (by rw [hcontra]; exact List.mem_map_of_mem CacheInsert.key hi)

/-- The `evictLRU` scan never updates its accumulator over entries at least
as recent as the accumulated timestamp. -/
theorem lruFold_no_update :
    ∀ (l : JsMap CacheEntry) (acc : String × ℤ),
      (∀ p ∈ l, acc.2 ≤ p.2.timestamp) →
      l.foldl (fun (acc : String × ℤ) p =>
        if p.2.timestamp < acc.2 then (p.1, p.2.timestamp) else acc) acc = acc := by
  intro l
  induction l with
  | nil => intro acc _; rfl
  | cons p ps ih =>
      intro acc h
      have hp : ¬ p.2.timestamp < acc.2 := not_lt.mpr (h p (by simp))
      simp only [List.foldl_cons, if_neg hp]
      exact ih acc (fun q hq => h q (by simp [hq]))

/-- When the head entry is strictly older than `Date.now()` and at least as
old as every other entry, `evictLRU` evicts the head (if its key is
truthy). -/
theorem evictLRU_head (now : ℤ) (k1 : String) (e1 : CacheEntry)
    (rest : JsMap CacheEntry) (hne : ¬ k1 = "")
    (hmin : ∀ p ∈ rest, e1.timestamp ≤ p.2.timestamp)
    (hnow : e1.timestamp < now) :
    IntegrationLayer.evictLRU now ((k1, e1) :: rest) = rest := by
  have hfold : ((k1, e1) :: rest).foldl (fun (acc : String × ℤ) p =>
      if p.2.timestamp < acc.2 then (p.1, p.2.timestamp) else acc) ("", now) =
      (k1, e1.timestamp) := by
    rw [List.foldl_cons]
    simp only [if_pos hnow]
    exact lruFold_no_update rest (k1, e1.timestamp) (by simpa using hmin)
  simp [IntegrationLayer.evictLRU, hfold, hne, JsMap.del]

/-- The `evictLFU` scan never updates its accumulator over entries with at
least the accumulated hit count. -/
theorem lfuFold_no_update :
    ∀ (l : JsMap CacheEntry) (k : String) (h0 : ℕ),
      (∀ p ∈ l, h0 ≤ p.2.hits) →
      l.foldl (fun (acc : String × Option ℕ) p =>
        match acc.2 with
        | none => (p.1, some p.2.hits)
        | some h => if p.2.hits < h then (p.1, some p.2.hits) else acc)
        (k, some h0) = (k, some h0) := by
  intro l
  induction l with
  | nil => intro k h0 _; rfl
  | cons p ps ih =>
      intro k h0 h
      have hp : ¬ p.2.hits < h0 := not_lt.mpr (h p (by simp))
      simp only [List.foldl_cons, if_neg hp]
      exact ih k h0 (fun q hq => h q (by simp [hq]))

/-- When the head entry has a minimal hit count, `evictLFU` evicts the head
(if its key is truthy). -/
theorem evictLFU_head (k1 : String) (e1 : CacheEntry) (rest : JsMap CacheEntry)
    (hne : ¬ k1 = "") (hmin : ∀ p ∈ rest, e1.hits ≤ p.2.hits) :
    IntegrationLayer.evictLFU ((k1, e1) :: rest) = rest := by
  have hfold : ((k1, e1) :: rest).foldl (fun (acc : String × Option ℕ) p =>
      match acc.2 with
      | none => (p.1, some p.2.hits)
      | some h => if p.2.hits < h then (p.1, some p.2.hits) else acc)
      ("", none) = (k1, some e1.hits) := by
    rw [List.foldl_cons]
    exact lfuFold_no_update rest k1 e1.hits (by simpa using hmin)
  simp [IntegrationLayer.evictLFU, hfold, hne, JsMap.del]

/-- `evictFIFO` evicts the first-inserted entry (if its key is truthy). -/
theorem evictFIFO_head (k1 : String) (e1 : CacheEntry) (rest : JsMap CacheEntry)
    (hne : ¬ k1 = "") :
    IntegrationLayer.evictFIFO ((k1, e1) :: rest) = rest := by
  simp [IntegrationLayer.evictFIFO, hne]

/-- C5 (amended: all keys truthy — non-empty — and insertion timestamps
nondecreasing with the first strictly before the final insert's clock
reading): inserting `maxSize + 1` distinct keys into an empty cache of
capacity `maxSize` leaves exactly `maxSize` entries, and the evicted entry
is the one the policy specifies — which in this read-free scenario is the
first-inserted entry for all three strategies: it is the oldest-inserted
(LRU), the first-inserted (FIFO), and has the (tied-)lowest access count 0
(LFU, first minimal in scan order).  Unamended the claim fails: see the
same-timestamp LRU and empty-string-key FIFO counterexamples. -/
theorem setCache_eviction_amended (cc : CacheConfig) (first last : CacheInsert)
    (mid : List CacheInsert)
    (hsize : cc.maxSize = mid.length + 1)
    (hkeys : ((first :: mid ++ [last]).map CacheInsert.key).Nodup)
    (hne : ∀ i ∈ first :: mid ++ [last], ¬ i.key = "")
    (horder : (first :: mid ++ [last]).Pairwise (fun a b => a.time ≤ b.time))
    (hstrict : first.time < last.time) :
    insertAll cc (first :: mid ++ [last]) [] =
      (mid ++ [last]).map (fun i => (i.key, CacheEntry.mk i.value i.time 0)) ∧
    (insertAll cc (first :: mid ++ [last]) []).length = cc.maxSize := by
  have hsplit : first :: mid ++ [last] = (first :: mid) ++ [last] := rfl
  have hkeysapp : (((first :: mid).map CacheInsert.key) ++
      [last].map CacheInsert.key).Nodup := by
    have h := hkeys
    rw [hsplit, List.map_append] at h
    exact h
  have hkeys1 : ((first :: mid).map CacheInsert.key).Nodup :=
    hkeysapp.of_append_left
  have hphase1 : insertAll cc (first :: mid) [] =
      (first :: mid).map (fun i => (i.key, CacheEntry.mk i.value i.time 0)) := by
    have h := insertAll_fresh cc (first :: mid) []
      (by simp [hsize]) (by simp) hkeys1
    simpa using h
  have hlenC : ((first :: mid).map
      (fun i => (i.key, CacheEntry.mk i.value i.time 0))).length = cc.maxSize := by
    simp [hsize]
  have hC : (first :: mid).map (fun i => (i.key, CacheEntry.mk i.value i.time 0)) =
      (first.key, CacheEntry.mk first.value first.time 0) ::
        mid.map (fun i => (i.key, CacheEntry.mk i.value i.time 0)) := by
    simp
  have hne1 : ¬ first.key = "" := hne first (by simp)
  have hfirstle : ∀ i ∈ mid, first.time ≤ i.time := by
    intro i hi
    exact (List.pairwise_cons.mp horder).1 i (List.mem_append_left _ hi)
  have hminT : ∀ p ∈ mid.map (fun i => (i.key, CacheEntry.mk i.value i.time 0)),
      (CacheEntry.mk first.value first.time 0).timestamp ≤ p.2.timestamp := by
    intro p hp
    obtain ⟨i, hi, rfl⟩ := List.mem_map.mp hp
    exact hfirstle i hi
  have hev : IntegrationLayer.evictFromCache cc last.time
      ((first :: mid).map (fun i => (i.key, CacheEntry.mk i.value i.time 0))) =
      mid.map (fun i => (i.key, CacheEntry.mk i.value i.time 0)) := by
    rw [hC]
    rcases hs : cc.strategy
    · simp only [IntegrationLayer.evictFromCache, hs]
      exact evictLRU_head last.time first.key _ _ hne1 hminT hstrict
    · simp only [IntegrationLayer.evictFromCache, hs]
      exact evictFIFO_head first.key _ _ hne1
    · simp only [IntegrationLayer.evictFromCache, hs]
      exact evictLFU_head first.key _ _ hne1 (fun p _ => Nat.zero_le _)
  have hlastfresh : ∀ p ∈ mid.map (fun i => (i.key, CacheEntry.mk i.value i.time 0)),
      p.1 ≠ last.key := by
    intro p hp
    obtain ⟨i, hi, rfl⟩ := List.mem_map.mp hp
    have hd := (List.nodup_append.mp hkeysapp).2.2
    have hmem : i.key ∈ (first :: mid).map CacheInsert.key := by
      simp only [List.map_cons, List.mem_cons]
      exact Or.inr (List.mem_map_of_mem CacheInsert.key hi)
    intro hcontra
    simp only at hcontra
    have hnot : i.key ∉ [last.key] := hd hmem
    simp only [List.mem_singleton] at hnot
    exact hnot hcontra
  have hmain : insertAll cc (first :: mid ++ [last]) [] =
      (mid ++ [last]).map (fun i => (i.key, CacheEntry.mk i.value i.time 0)) := by
    rw [hsplit, insertAll_append]
    show IntegrationLayer.setCache cc last.time last.key last.value
      (insertAll cc (first :: mid) []) = _
    rw [hphase1, IntegrationLayer.setCache, if_pos (le_of_eq hlenC.symm), hev,
      JsMap.set_fresh _ _ _ hlastfresh]
    simp
  exact ⟨hmain, by rw [hmain]; simp [hsize]⟩

/-- Witness for C5 (amended): capacity 2, LRU strategy, inserting the three
distinct non-empty keys `a`, `b`, `c` at strictly increasing times 0, 1, 2
evicts `a` (the oldest-inserted) and leaves exactly the 2 entries `b`,
`c`. -/
theorem setCache_eviction_amended_witness :
    insertAll ⟨true, 300000, 2, .lru⟩
      [⟨"a", 0, JValue.jstr "x"⟩, ⟨"b", 1, JValue.jstr "y"⟩,
        ⟨"c", 2, JValue.jstr "z"⟩] [] =
      [("b", ⟨JValue.jstr "y", 1, 0⟩), ("c", ⟨JValue.jstr "z", 2, 0⟩)] ∧
    (insertAll ⟨true, 300000, 2, .lru⟩
      [⟨"a", 0, JValue.jstr "x"⟩, ⟨"b", 1, JValue.jstr "y"⟩,
        ⟨"c", 2, JValue.jstr "z"⟩] []).length = 2 := by
  have h := setCache_eviction_amended ⟨true, 300000, 2, .lru⟩
    ⟨"a", 0, JValue.jstr "x"⟩ ⟨"c", 2, JValue.jstr "z"⟩
    [⟨"b", 1, JValue.jstr "y"⟩] rfl (by decide) (by decide) (by decide)
    (by decide)
  exact ⟨by simpa using h.1, by simpa using h.2⟩
